import Mathlib

/-!
Verification of the metric-aggregation core of the DashBoard repository
(`src/Dashboard.py`), shallowly embedded in Lean 4.

The embedding follows the Python source:
  * a pandas DataFrame of event records becomes a `List Row`;
  * a float cell that may be NaN becomes an `Option ℚ` (`none` = NaN);
  * the derived episode column `회차_numeric` becomes an `Option ℕ`;
  * pandas element-wise column operations become `List.map`,
    `dropna`-style steps become `List.filter`, and `groupby` becomes
    key deduplication plus per-key filtering.
-/

namespace Dashboard

/-- A record of the event table as consumed by the aggregators
(after `_df_basic_clean`): only the columns the aggregation layer reads.
`value = none` models a NaN cell, `epNum = none` a missing `회차_numeric`. -/
structure Row where
  ip : String
  metric : String
  media : String
  epNum : Option ℕ
  value : Option ℚ
deriving DecidableEq, Repr

/-- Mean of a list of rationals; `none` on the empty list
(pandas: `Series.mean()` of an empty series is NaN, and the callers
guard with `if not ... .empty`). -/
def listMean (l : List ℚ) : Option ℚ :=
  if l = [] then none else some (l.sum / l.length)

/-- The zero/missing filter shared by all aggregators:
`pd.to_numeric(..., errors="coerce").replace(0, np.nan)` followed by
`dropna(subset=["value"])` keeps exactly the rows whose value is a
number different from 0. -/
def validValue (r : Row) : Bool :=
  match r.value with
  | some v => decide (v ≠ 0)
  | none => false

/-- `dropna(subset=[ep_col])`: keep rows with a present episode number. -/
def hasEp (r : Row) : Bool := r.epNum.isSome

/-- Row filter for `df[df["metric"] == metric_name]` plus the optional
`sub[sub["매체"].isin(media)]` media filter. -/
def metricMediaFilter (df : List Row) (metricName : String) (media : Option (List String)) :
    List Row :=
  let sub := df.filter (fun r => r.metric == metricName)
  match media with
  | some ms => sub.filter (fun r => ms.contains r.media)
  | none => sub

/-- The distinct group keys of a `groupby`, in first-appearance order. -/
def groupKeys {α : Type} [DecidableEq α] (df : List Row) (key : Row → α) : List α :=
  (df.map key).dedup

/-- The values of one `groupby` group (rows whose key equals `k`). -/
def groupVals {α : Type} [DecidableEq α] (df : List Row) (key : Row → α) (k : α) : List ℚ :=
  ((df.filter (fun r => decide (key r = k))).filterMap (·.value))

/-- The group-and-reduce stage of `mean_of_ip_episode_sum` applied to the
rows that survive the episode/zero filters: sum per (IP, episode), average
per IP, then average across IPs. -/
def episodeSumCore (sub : List Row) : Option ℚ :=
  let keys := groupKeys sub (fun r => (r.ip, r.epNum))
  let epSum : List ((String × Option ℕ) × ℚ) :=
    keys.map (fun k => (k, (groupVals sub (fun r => (r.ip, r.epNum)) k).sum))
  let ips := (epSum.map (fun p => p.1.1)).dedup
  let perIpMean : List ℚ :=
    ips.filterMap (fun ip =>
      listMean ((epSum.filter (fun p => p.1.1 == ip)).map (·.2)))
  listMean perIpMean

/-- The group-and-reduce stage of `mean_of_ip_episode_mean`: mean per
(IP, episode), average per IP, then average across IPs. -/
def episodeMeanCore (sub : List Row) : Option ℚ :=
  let keys := groupKeys sub (fun r => (r.ip, r.epNum))
  let epMean : List ((String × Option ℕ) × Option ℚ) :=
    keys.map (fun k => (k, listMean (groupVals sub (fun r => (r.ip, r.epNum)) k)))
  let ips := (epMean.map (fun p => p.1.1)).dedup
  let perIpMean : List ℚ :=
    ips.filterMap (fun ip =>
      listMean ((epMean.filter (fun p => p.1.1 == ip)).filterMap (·.2)))
  listMean perIpMean

/-- The group-and-reduce stage of `mean_of_ip_sums`: sum per IP
(no episode grouping), then average across IPs. -/
def ipSumsCore (sub : List Row) : Option ℚ :=
  let ips := groupKeys sub (·.ip)
  let perIpSum : List ℚ := ips.map (fun ip => (groupVals sub (·.ip) ip).sum)
  listMean perIpSum

/-- `mean_of_ip_episode_sum` (src/Dashboard.py lines 347-359):
filter by metric/media, return `None` when empty, drop missing episodes,
drop NaN/zero values, sum per (IP, episode), average per IP, then average
across IPs. -/
def mean_of_ip_episode_sum (df : List Row) (metricName : String)
    (media : Option (List String) := none) : Option ℚ :=
  let sub := metricMediaFilter df metricName media
  if sub = [] then none else
  episodeSumCore ((sub.filter hasEp).filter validValue)

/-- `mean_of_ip_episode_mean` (src/Dashboard.py lines 361-373):
like `mean_of_ip_episode_sum` but the inner per-(IP, episode) reduction
is a mean. -/
def mean_of_ip_episode_mean (df : List Row) (metricName : String)
    (media : Option (List String) := none) : Option ℚ :=
  let sub := metricMediaFilter df metricName media
  if sub = [] then none else
  episodeMeanCore ((sub.filter hasEp).filter validValue)

/-- `mean_of_ip_sums` (src/Dashboard.py lines 375-384):
filter by metric/media, return `None` when empty, drop NaN/zero values,
sum per IP (no episode grouping), then average across IPs. -/
def mean_of_ip_sums (df : List Row) (metricName : String)
    (media : Option (List String) := none) : Option ℚ :=
  let sub := metricMediaFilter df metricName media
  if sub = [] then none else
  ipSumsCore (sub.filter validValue)

/-! ### Shared lemmas about the zero/missing filter -/

lemma metricMediaFilter_filter (df : List Row) (m : String) (media : Option (List String)) :
    metricMediaFilter (df.filter validValue) m media =
      (metricMediaFilter df m media).filter validValue := by
  unfold metricMediaFilter
  cases media with
  | none => exact List.filter_comm _ _ _
  | some ms =>
      simp only
      rw [List.filter_comm (fun r => r.metric == m) validValue df,
        List.filter_comm (fun r => ms.contains r.media) validValue]

lemma survivors_filter_validValue (sub : List Row) :
    ((sub.filter validValue).filter hasEp).filter validValue =
      (sub.filter hasEp).filter validValue := by
  simp only [List.filter_filter]
  congr 1
  funext r
  cases h1 : hasEp r <;> cases h2 : validValue r <;> simp [h1, h2]

lemma filter_validValue_idem (sub : List Row) :
    (sub.filter validValue).filter validValue = sub.filter validValue := by
  rw [List.filter_filter]
  congr 1
  funext r
  cases h : validValue r <;> simp [h]

lemma episodeSumCore_nil : episodeSumCore [] = none := rfl

lemma episodeMeanCore_nil : episodeMeanCore [] = none := rfl

lemma ipSumsCore_nil : ipSumsCore [] = none := rfl

/-- Dropping the rows rejected by the zero/missing filter in advance does not
change `mean_of_ip_episode_sum`. -/
lemma mean_of_ip_episode_sum_filter (df : List Row) (m : String) (media : Option (List String)) :
    mean_of_ip_episode_sum df m media = mean_of_ip_episode_sum (df.filter validValue) m media := by
  unfold mean_of_ip_episode_sum
  rw [metricMediaFilter_filter]
  set s := metricMediaFilter df m media with hs
  by_cases h0 : s = []
  · simp [h0]
  · by_cases h1 : s.filter validValue = []
    · have h2 : (s.filter hasEp).filter validValue = [] := by
        rw [List.filter_comm, h1]; rfl
      simp [h0, h1, h2, episodeSumCore_nil]
    · rw [if_neg h0, if_neg h1, survivors_filter_validValue]

/-- Dropping the rows rejected by the zero/missing filter in advance does not
change `mean_of_ip_episode_mean`. -/
lemma mean_of_ip_episode_mean_filter (df : List Row) (m : String) (media : Option (List String)) :
    mean_of_ip_episode_mean df m media = mean_of_ip_episode_mean (df.filter validValue) m media := by
  unfold mean_of_ip_episode_mean
  rw [metricMediaFilter_filter]
  set s := metricMediaFilter df m media with hs
  by_cases h0 : s = []
  · simp [h0]
  · by_cases h1 : s.filter validValue = []
    · have h2 : (s.filter hasEp).filter validValue = [] := by
        rw [List.filter_comm, h1]; rfl
      simp [h0, h1, h2, episodeMeanCore_nil]
    · rw [if_neg h0, if_neg h1, survivors_filter_validValue]

/-- Dropping the rows rejected by the zero/missing filter in advance does not
change `mean_of_ip_sums`. -/
lemma mean_of_ip_sums_filter (df : List Row) (m : String) (media : Option (List String)) :
    mean_of_ip_sums df m media = mean_of_ip_sums (df.filter validValue) m media := by
  unfold mean_of_ip_sums
  rw [metricMediaFilter_filter]
  set s := metricMediaFilter df m media with hs
  by_cases h0 : s = []
  · simp [h0]
  · by_cases h1 : s.filter validValue = []
    · simp [h0, h1, ipSumsCore_nil]
    · rw [if_neg h0, if_neg h1, filter_validValue_idem]

/-- Row filter written from the claim's words (not from the source):
keep only rows whose value is numeric and strictly positive, i.e. drop
every "non-numeric or non-positive (value <= 0)" row. -/
def specKeepPositive (r : Row) : Bool :=
  match r.value with
  | some v => decide (0 < v)
  | none => false

/-- C1 (amended): in all three reduction modes, every row whose raw value is
non-numeric (NaN) or exactly zero is treated as absent and excluded before the
group-and-reduce step: the returned aggregate equals the aggregate of the
table with all such rows removed, and no excluded row contributes as a zero
to any mean or sum.  (Strictly negative values are NOT excluded; the
`replace(0, np.nan)` step only rejects zeros.) -/
theorem C1_zero_rows_excluded (df : List Row) (m : String) (media : Option (List String)) :
    mean_of_ip_episode_mean df m media = mean_of_ip_episode_mean (df.filter validValue) m media ∧
    mean_of_ip_episode_sum df m media = mean_of_ip_episode_sum (df.filter validValue) m media ∧
    mean_of_ip_sums df m media = mean_of_ip_sums (df.filter validValue) m media :=
  ⟨mean_of_ip_episode_mean_filter df m media,
   mean_of_ip_episode_sum_filter df m media,
   mean_of_ip_sums_filter df m media⟩

/-- C1 counterexample: on a table holding one row with the strictly negative
value -5, `mean_of_ip_sums` does NOT equal the aggregate of the table with
the non-positive rows removed: the negative row is kept (result -5), while
removing it as the claim demands would give a missing result. -/
theorem C1_counterexample :
    mean_of_ip_sums [⟨"A", "m", "TV", some 1, some (-5)⟩] "m" none ≠
      mean_of_ip_sums
        (([⟨"A", "m", "TV", some 1, some (-5)⟩] : List Row).filter specKeepPositive) "m" none := by
  decide

/-- C2: if filtering to the metric (and media set when given), then dropping
rows with a missing episode number and rows rejected by the zero-filter,
leaves no surviving rows, then both `mean_of_ip_episode_mean` and
`mean_of_ip_episode_sum` return `none` — a missing value, not 0. -/
theorem C2_empty_filtered_returns_none (df : List Row) (m : String)
    (media : Option (List String))
    (h : ((metricMediaFilter df m media).filter hasEp).filter validValue = []) :
    mean_of_ip_episode_mean df m media = none ∧
      mean_of_ip_episode_sum df m media = none := by
  constructor
  · unfold mean_of_ip_episode_mean
    by_cases h0 : metricMediaFilter df m media = []
    · simp [h0]
    · rw [if_neg h0, h, episodeMeanCore_nil]
  · unfold mean_of_ip_episode_sum
    by_cases h0 : metricMediaFilter df m media = []
    · simp [h0]
    · rw [if_neg h0, h, episodeSumCore_nil]

/-- C2 witness: a table whose only matching row has value 0 (rejected by the
zero-filter) makes both aggregates return a missing value. -/
theorem C2_empty_filtered_returns_none_witness :
    mean_of_ip_episode_mean [⟨"A", "m", "TV", some 1, some 0⟩] "m" none = none ∧
      mean_of_ip_episode_sum [⟨"A", "m", "TV", some 1, some 0⟩] "m" none = none :=
  C2_empty_filtered_returns_none [⟨"A", "m", "TV", some 1, some 0⟩] "m" none rfl

/-! ### Demographic comparison index (`render_demographic`) -/

/-- The fixed demographic column order (src/Dashboard.py lines 293-300). -/
def DEMO_COLS_ORDER : List String :=
  ["10대남성", "10대여성", "20대남성", "20대여성", "30대남성", "30대여성",
   "40대남성", "40대여성", "50대남성", "50대여성", "60대남성", "60대여성"]

/-- The per-cell comparison index (src/Dashboard.py lines 1219-1223):
`np.where(comp != 0, (base - comp) / comp * 100, np.where(base == 0, 0.0, 999))`. -/
def compIndex (base comp : ℚ) : ℚ :=
  if comp ≠ 0 then (base - comp) / comp * 100
  else if base = 0 then 0 else 999

/-- One row of an aggregated demographic table (`get_avg_demo_pop_by_episode`
output): the episode label plus one value per column of `DEMO_COLS_ORDER`. -/
structure DemoRow where
  ep : String
  vals : List ℚ
deriving DecidableEq, Repr

/-- The zero comparison table substituted when the comparison subject cannot
be built (src/Dashboard.py lines 1204-1206): the base episodes with every
demographic cell set to 0.0. -/
def zeroCompTable (base : List DemoRow) : List DemoRow :=
  base.map (fun b => ⟨b.ep, DEMO_COLS_ORDER.map (fun _ => 0)⟩)

/-- One row of the rendered index table: episode, the index values, and the
base/comp columns that are carried along (src/Dashboard.py lines 1224-1226). -/
structure IndexRow where
  ep : String
  index : List ℚ
  baseVals : List ℚ
  compVals : List ℚ
deriving DecidableEq, Repr

/-- The index-table construction of `render_demographic`
(src/Dashboard.py lines 1203-1226): replace an empty comparison table by the
all-zero table, left-join on the episode key (a key absent from the
comparison side becomes NaN and is filled with 0.0), and compute the
comparison index cell-wise. -/
def demoIndexTable (base comp : List DemoRow) : List IndexRow :=
  let comp := if comp = [] then zeroCompTable base else comp
  base.map (fun b =>
    let cv := match comp.find? (fun c => c.ep == b.ep) with
      | some c => c.vals
      | none => DEMO_COLS_ORDER.map (fun _ => 0)
    ⟨b.ep, (b.vals.zip cv).map (fun p => compIndex p.1 p.2), b.vals, cv⟩)

/-- C3: the comparison index equals `(base - comp) / comp * 100` when
`comp != 0`, equals 0 when both are 0, and equals the sentinel 999 when
`comp == 0` and `base != 0`; in particular
`index(50, 100) = -50`, `index(100, 0) = 999`, `index(0, 0) = 0`. -/
theorem C3_comp_index (base comp : ℚ) :
    (comp ≠ 0 → compIndex base comp = (base - comp) / comp * 100) ∧
    (base = 0 ∧ comp = 0 → compIndex base comp = 0) ∧
    (comp = 0 ∧ base ≠ 0 → compIndex base comp = 999) ∧
    compIndex 50 100 = -50 ∧ compIndex 100 0 = 999 ∧ compIndex 0 0 = 0 := by
  refine ⟨fun h => if_pos h, fun h => ?_, fun h => ?_, ?_, ?_, ?_⟩
  · rw [compIndex, if_neg (by simpa using h.2), if_pos h.1]
  · rw [compIndex, if_neg (by simpa using h.1), if_neg h.2]
  · norm_num [compIndex]
  · norm_num [compIndex]
  · norm_num [compIndex]

/-- C3 witness: the three concrete instances, obtained from `C3_comp_index`
with each hypothesis discharged at the concrete inputs. -/
theorem C3_comp_index_witness :
    compIndex 50 100 = (50 - 100) / 100 * 100 ∧
      compIndex 0 0 = 0 ∧ compIndex 100 0 = 999 :=
  ⟨(C3_comp_index 50 100).1 (by norm_num),
   (C3_comp_index 0 0).2.1 ⟨rfl, rfl⟩,
   (C3_comp_index 100 0).2.2.1 ⟨rfl, by norm_num⟩⟩

lemma zip_const_map (f : ℚ → ℚ → ℚ) (c : ℚ) :
    ∀ (l z : List ℚ), l.length ≤ z.length → (∀ x ∈ z, x = c) →
      (l.zip z).map (fun p => f p.1 p.2) = l.map (fun v => f v c) := by
  intro l
  induction l with
  | nil => intro z _ _; simp
  | cons a t ih =>
      intro z hlen hz
      cases z with
      | nil => simp at hlen
      | cons zh zt =>
          simp only [List.zip_cons_cons, List.map_cons]
          rw [hz zh (by simp), ih zt (by simpa using hlen)
            (fun x hx => hz x (by simp [hx]))]

lemma zeroCompTable_vals (base : List DemoRow) :
    ∀ x ∈ zeroCompTable base, x.vals = DEMO_COLS_ORDER.map (fun _ => (0 : ℚ)) := by
  intro x hx
  rcases List.mem_map.mp hx with ⟨b, _, rfl⟩
  rfl

/-- C10: when the comparison table cannot be built (it is empty and is
replaced by the all-zero table), or when it lacks the episode key of a base
row after the left join, every comparison cell of that row becomes 0, and
the index row is still fully populated: each non-zero base cell yields the
999 sentinel and each zero base cell yields index 0.  The index table always
has exactly one row per base row. -/
theorem C10_missing_comp_all_zero (base comp : List DemoRow) (i : ℕ) (b : DemoRow)
    (hb : base.get? i = some b)
    (hlen : b.vals.length = DEMO_COLS_ORDER.length)
    (hmiss : comp = [] ∨ ∀ c ∈ comp, c.ep ≠ b.ep) :
    (demoIndexTable base comp).length = base.length ∧
    (demoIndexTable base comp).get? i =
      some ⟨b.ep, b.vals.map (fun v => if v = 0 then 0 else 999), b.vals,
            DEMO_COLS_ORDER.map (fun _ => 0)⟩ := by
  have hzeros : ∀ x ∈ DEMO_COLS_ORDER.map (fun _ => (0 : ℚ)), x = 0 := by
    intro x hx
    rcases List.mem_map.mp hx with ⟨_, _, rfl⟩
    rfl
  have hzlen : b.vals.length ≤ (DEMO_COLS_ORDER.map (fun _ => (0 : ℚ))).length := by
    rw [List.length_map, hlen]
  constructor
  · unfold demoIndexTable
    simp
  · unfold demoIndexTable
    simp only
    rw [List.get?_map, hb, Option.map_some']
    have hcv :
        (match (if comp = [] then zeroCompTable base else comp).find?
            (fun c => c.ep == b.ep) with
          | some c => c.vals
          | none => DEMO_COLS_ORDER.map (fun _ => (0 : ℚ))) =
          DEMO_COLS_ORDER.map (fun _ => (0 : ℚ)) := by
      rcases hmiss with hc | hc
      · rw [if_pos hc]
        cases hfind : (zeroCompTable base).find? (fun c => c.ep == b.ep) with
        | none => rfl
        | some c =>
            simp only
            exact zeroCompTable_vals base c (List.mem_of_find?_eq_some hfind)
      · by_cases hce : comp = []
        · rw [if_pos hce]
          cases hfind : (zeroCompTable base).find? (fun c => c.ep == b.ep) with
          | none => rfl
          | some c =>
              simp only
              exact zeroCompTable_vals base c (List.mem_of_find?_eq_some hfind)
        · rw [if_neg hce]
          have : comp.find? (fun c => c.ep == b.ep) = none := by
            rw [List.find?_eq_none]
            intro c hcmem
            simpa using hc c hcmem
          rw [this]
    rw [hcv, zip_const_map (fun x y => compIndex x y) 0 b.vals _ hzlen hzeros]
    have : (fun v => compIndex v 0) = fun v => if v = 0 then (0 : ℚ) else 999 := by
      funext v
      simp [compIndex]
    rw [this]

/-- C10 witness: a base table with one episode row and an empty comparison
table: the comparison cells coerce to 0, the non-zero base cell indexes to
999 and the zero base cells index to 0. -/
theorem C10_missing_comp_all_zero_witness :
    (demoIndexTable [⟨"1", [5, 0, 0, 0, 0, 0, 0, 0, 0, 0, 0, 0]⟩] []).length = 1 ∧
    (demoIndexTable [⟨"1", [5, 0, 0, 0, 0, 0, 0, 0, 0, 0, 0, 0]⟩] []).get? 0 =
      some ⟨"1", [999, 0, 0, 0, 0, 0, 0, 0, 0, 0, 0, 0],
            [5, 0, 0, 0, 0, 0, 0, 0, 0, 0, 0, 0],
            DEMO_COLS_ORDER.map (fun _ => 0)⟩ := by
  have h := C10_missing_comp_all_zero [⟨"1", [5, 0, 0, 0, 0, 0, 0, 0, 0, 0, 0, 0]⟩] [] 0
    ⟨"1", [5, 0, 0, 0, 0, 0, 0, 0, 0, 0, 0, 0]⟩ rfl (by decide) (Or.inl rfl)
  refine ⟨h.1, ?_⟩
  rw [h.2]
  norm_num

/-! ### Record normalizer (`_df_basic_clean`) -/

/-- `str.replace(c, "", regex=False)` for a single-character pattern:
remove every occurrence of the character. -/
def removeChar (c : Char) (l : List Char) : List Char :=
  l.filter (fun x => x ≠ c)

/-- `str.strip()` / leading-and-trailing-whitespace trim. -/
def trimChars (l : List Char) : List Char :=
  ((l.dropWhile (fun c => c.isWhitespace)).reverse.dropWhile
    (fun c => c.isWhitespace)).reverse

/-- `str.strip()` on a `String`. -/
def strStrip (s : String) : String :=
  String.mk (trimChars s.toList)

/-- Numeric value of a run of decimal digits. -/
def parseNatDigits (l : List Char) : ℕ :=
  l.foldl (fun a c => a * 10 + (c.toNat - 48)) 0

/-- Parse an unsigned decimal literal (`123`, `123.45`, `.5`, `1.`);
`none` when the text is not a number.  Models Python's `float` parsing of
the payload of `pd.to_numeric(..., errors="coerce")`. -/
def parseUnsigned (l : List Char) : Option ℚ :=
  let ipart := l.takeWhile Char.isDigit
  match l.dropWhile Char.isDigit with
  | [] => if ipart.isEmpty then none else some ((parseNatDigits ipart : ℚ))
  | '.' :: frac =>
      if frac.all Char.isDigit && !(ipart.isEmpty && frac.isEmpty) then
        some ((parseNatDigits ipart : ℚ) +
          (parseNatDigits frac : ℚ) / (10 : ℚ) ^ frac.length)
      else none
  | _ => none

/-- Parse a possibly signed decimal literal after stripping surrounding
whitespace; `none` models NaN (the `errors="coerce"` outcome). -/
def parseFloatQ (s : String) : Option ℚ :=
  match trimChars s.toList with
  | '-' :: t => (parseUnsigned t).map (fun q => -q)
  | '+' :: t => parseUnsigned t
  | t => parseUnsigned t

/-- The value-column normalization (src/Dashboard.py lines 174-180):
strip thousands separators and percent signs, parse as float, and default
unparseable values to 0 (`pd.to_numeric(v, errors="coerce").fillna(0)`). -/
def cleanValue (s : String) : ℚ :=
  (parseFloatQ (String.mk (removeChar '%' (removeChar ',' s.toList)))).getD 0

/-- The derived episode number (src/Dashboard.py line 189):
`str.extract(r"(\d+)")` takes the first run of digits; no digits means a
missing episode number. -/
def extractEpisodeNum (s : String) : Option ℕ :=
  let ds := (s.toList.dropWhile (fun c => !c.isDigit)).takeWhile Char.isDigit
  if ds.isEmpty then none else some (parseNatDigits ds)

/-- The fixed-format date parse (src/Dashboard.py lines 164-171):
`pd.to_datetime(x.strip(), format="%Y. %m. %d", errors="coerce")`,
yielding `(year, month, day)` or `none` for an unparseable cell. -/
def parseDate (s : String) : Option (ℕ × ℕ × ℕ) :=
  let l := trimChars s.toList
  let y := l.takeWhile Char.isDigit
  match l.dropWhile Char.isDigit with
  | '.' :: ' ' :: r1 =>
      let m := r1.takeWhile Char.isDigit
      match r1.dropWhile Char.isDigit with
      | '.' :: ' ' :: r2 =>
          let d := r2.takeWhile Char.isDigit
          if y.isEmpty || m.isEmpty || d.isEmpty ||
              !(r2.dropWhile Char.isDigit).isEmpty then none
          else some (parseNatDigits y, parseNatDigits m, parseNatDigits d)
      | _ => none
  | _ => none

/-- A raw sheet record: every cell is the string the spreadsheet client
delivered (the columns `_df_basic_clean` touches). -/
structure RawRow where
  ip : String
  prog : String
  metric : String
  media : String
  demo : String
  ep : String
  week : String
  weekStart : String
  airStart : String
  value : String
deriving DecidableEq, Repr

/-- A normalized record: dates parsed, value numeric (0 when unparseable),
categorical strings trimmed, and the derived `회차_numeric` column added. -/
structure CleanRow where
  ip : String
  prog : String
  metric : String
  media : String
  demo : String
  ep : String
  week : String
  weekStart : Option (ℕ × ℕ × ℕ)
  airStart : Option (ℕ × ℕ × ℕ)
  value : ℚ
  epNum : Option ℕ
deriving DecidableEq, Repr

/-- The per-row effect of `_df_basic_clean`'s column transformations
(src/Dashboard.py lines 159-192): every operation in the source
(`pd.to_datetime`, the value cleaning, `str.strip`, `str.extract`) is
element-wise, so the whole pass acts row by row. -/
def cleanRow (r : RawRow) : CleanRow :=
  { ip := strStrip r.ip
    prog := strStrip r.prog
    metric := strStrip r.metric
    media := strStrip r.media
    demo := strStrip r.demo
    ep := strStrip r.ep
    week := strStrip r.week
    weekStart := parseDate r.weekStart
    airStart := parseDate r.airStart
    value := cleanValue r.value
    epNum := extractEpisodeNum (strStrip r.ep) }

/-- `_df_basic_clean` (src/Dashboard.py lines 159-192): the empty table is
returned unchanged; otherwise every column transformation is applied.  The
episode extraction runs on the already-trimmed `회차` column. -/
def df_basic_clean (df : List RawRow) : List CleanRow :=
  if df = [] then [] else df.map cleanRow

/-- The aggregation-layer view of a normalized record: the columns the
KPI aggregators read, with the numeric value a present (non-NaN) cell. -/
def toAggRow (c : CleanRow) : Row :=
  ⟨c.ip, c.metric, c.media, c.epNum, some c.value⟩

/-- C9: the normalizer never drops a row: the output table has exactly the
same number of rows as the input, and its i-th row is the cell-wise
transformation (with the derived episode-number column added) of the i-th
input row; all row filtering happens downstream in the aggregators. -/
theorem C9_normalizer_keeps_rows (df : List RawRow) :
    (df_basic_clean df).length = df.length ∧
    ∀ i : ℕ, (df_basic_clean df).get? i = (df.get? i).map cleanRow := by
  unfold df_basic_clean
  by_cases h : df = []
  · subst h
    exact ⟨rfl, fun i => by simp⟩
  · rw [if_neg h]
    exact ⟨List.length_map df cleanRow, fun i => List.get?_map cleanRow df i⟩

/-- C7: value normalization strips thousands separators and percent signs
then parses as float: `"1,234%"` yields 1234, while an unparseable cell such
as `"abc"` (or an absent/empty cell) yields 0 at load time; and every
aggregator's zero-filter stage excludes those zero rows: each aggregate on
any table equals the aggregate on the table with the zero/NaN rows removed. -/
theorem C7_value_normalization :
    cleanValue "1,234%" = 1234 ∧
    cleanValue "abc" = 0 ∧
    cleanValue "" = 0 ∧
    (∀ r : RawRow, (cleanRow r).value = cleanValue r.value) ∧
    (∀ (df : List Row) (m : String) (media : Option (List String)),
      mean_of_ip_episode_mean df m media =
        mean_of_ip_episode_mean (df.filter validValue) m media ∧
      mean_of_ip_episode_sum df m media =
        mean_of_ip_episode_sum (df.filter validValue) m media ∧
      mean_of_ip_sums df m media = mean_of_ip_sums (df.filter validValue) m media) ∧
    (∀ r : Row, r.value = some 0 → validValue r = false) := by
  refine ⟨by decide, by decide, by decide, fun r => rfl, fun df m media =>
    ⟨mean_of_ip_episode_mean_filter df m media,
     mean_of_ip_episode_sum_filter df m media,
     mean_of_ip_sums_filter df m media⟩, fun r h => ?_⟩
  simp [validValue, h]

/-! ### Quintile grading (`_quintile_grade`, src/Dashboard.py lines 1831-1841) -/

/-- The bin edges `[0, .2, .4, .6, .8, 1.0000001]` of `_quintile_grade`. -/
def QUINTILE_BINS : List ℚ := [0, 2/10, 4/10, 6/10, 8/10, 10000001/10000000]

/-- `np.digitize(x, bins, right=True)`: the number of bin edges strictly
below `x` (for sorted `bins`, the index `i` with `bins[i-1] < x <= bins[i]`). -/
def digitizeRight (bins : List ℚ) (x : ℚ) : ℕ :=
  (bins.filter (fun b => decide (b < x))).length

/-- `np.clip(np.digitize(ranks, bins, right=True) - 1, 0, 4)`; the `- 1`
is ℕ-truncated subtraction, which matches the lower clip at 0. -/
def bucketOf (p : ℚ) : ℕ := min 4 (digitizeRight QUINTILE_BINS p - 1)

/-- `Series.rank(method="average", ascending=False, pct=True)` of one value
`v` against the non-missing vector `valid`: the count of strictly larger
values plus the average position inside the tied group, divided by the
number of non-missing values. -/
def descPctRank (valid : List ℚ) (v : ℚ) : ℚ :=
  (((valid.filter (fun u => decide (v < u))).length : ℚ) +
    (((valid.filter (fun u => decide (u = v))).length : ℚ) + 1) / 2) / valid.length

/-- `_quintile_grade` (src/Dashboard.py lines 1831-1841): if no value is
non-missing, everything grades to missing; otherwise each non-missing value
is bucketed by its descending average percentile rank and mapped through
`labels`, while missing values stay missing (`reindex` leaves NaN). -/
def quintile_grade (s : List (Option ℚ)) (labels : List String) : List (Option String) :=
  if s.filterMap id = [] then s.map (fun _ => none)
  else s.map (Option.map (fun v => labels.getD (bucketOf (descPctRank (s.filterMap id) v)) ""))

lemma bucket_char (p : ℚ) (hp0 : 0 < p) (hp1 : p ≤ 1) :
    bucketOf p =
      if p ≤ 2/10 then 0 else if p ≤ 4/10 then 1 else if p ≤ 6/10 then 2
        else if p ≤ 8/10 then 3 else 4 := by
  have hL : ¬((10000001:ℚ)/10000000 < p) := by
    intro hc
    have h1 : (1:ℚ) < 10000001/10000000 := by norm_num
    linarith
  simp only [bucketOf, digitizeRight, QUINTILE_BINS, List.filter_cons, List.filter_nil,
    decide_eq_true_eq]
  rcases le_or_lt p (2/10) with hA | hA
  · have n2 : ¬((2:ℚ)/10 < p) := not_lt.mpr hA
    have n4 : ¬((4:ℚ)/10 < p) := by intro h; linarith
    have n6 : ¬((6:ℚ)/10 < p) := by intro h; linarith
    have n8 : ¬((8:ℚ)/10 < p) := by intro h; linarith
    simp [hp0, n2, n4, n6, n8, hL, hA]
  · rcases le_or_lt p (4/10) with hB | hB
    · have n4 : ¬((4:ℚ)/10 < p) := not_lt.mpr hB
      have n6 : ¬((6:ℚ)/10 < p) := by intro h; linarith
      have n8 : ¬((8:ℚ)/10 < p) := by intro h; linarith
      have m2 : ¬(p ≤ 2/10) := not_le.mpr hA
      simp [hp0, hA, n4, n6, n8, hL, m2, hB]
    · rcases le_or_lt p (6/10) with hC | hC
      · have n6 : ¬((6:ℚ)/10 < p) := not_lt.mpr hC
        have n8 : ¬((8:ℚ)/10 < p) := by intro h; linarith
        have m2 : ¬(p ≤ 2/10) := by intro h; linarith
        have m4 : ¬(p ≤ 4/10) := not_le.mpr hB
        simp [hp0, hA, hB, n6, n8, hL, m2, m4, hC]
      · rcases le_or_lt p (8/10) with hD | hD
        · have n8 : ¬((8:ℚ)/10 < p) := not_lt.mpr hD
          have m2 : ¬(p ≤ 2/10) := by intro h; linarith
          have m4 : ¬(p ≤ 4/10) := by intro h; linarith
          have m6 : ¬(p ≤ 6/10) := not_le.mpr hC
          simp [hp0, hA, hB, hC, n8, hL, m2, m4, m6, hD]
        · have m2 : ¬(p ≤ 2/10) := by intro h; linarith
          have m4 : ¬(p ≤ 4/10) := by intro h; linarith
          have m6 : ¬(p ≤ 6/10) := by intro h; linarith
          have m8 : ¬(p ≤ 8/10) := not_le.mpr hD
          simp [hp0, hA, hB, hC, hD, hL, m2, m4, m6, m8]

lemma nodup_filter_eq_length {α : Type} [DecidableEq α] (l : List α) (v : α)
    (h : l.Nodup) (hm : v ∈ l) :
    (l.filter (fun u => decide (u = v))).length = 1 := by
  rw [← List.countP_eq_length_filter]
  have h1 : l.count v = 1 := List.count_eq_one_of_mem h hm
  rw [← h1]
  rfl

/-- C4: quintile grading computes, for every non-missing value, its
descending-order average-tie percentile rank and buckets it through the five
equal-width bins `[0,.2],(.2,.4],(.4,.6],(.6,.8],(.8,1]` onto the labels in
best-to-worst order; with at least 5 distinct non-missing values, every
value whose descending position is within the best 20% receives the first
(top) label; a missing input always grades to missing, and the output has
one grade slot per input slot. -/
theorem C4_quintile_grade (s : List (Option ℚ)) (labels : List String) (i : ℕ) (v : ℚ) :
    (quintile_grade s labels).length = s.length ∧
    (s.get? i = some none → (quintile_grade s labels).get? i = some none) ∧
    (∀ p : ℚ, 0 < p → p ≤ 1 → bucketOf p =
      if p ≤ 2/10 then 0 else if p ≤ 4/10 then 1 else if p ≤ 6/10 then 2
        else if p ≤ 8/10 then 3 else 4) ∧
    (s.filterMap id ≠ [] → s.get? i = some (some v) →
      (quintile_grade s labels).get? i =
        some (some (labels.getD (bucketOf (descPctRank (s.filterMap id) v)) ""))) ∧
    ((s.filterMap id).Nodup → 5 ≤ (s.filterMap id).length →
      s.get? i = some (some v) →
      ((((s.filterMap id).filter (fun u => decide (v < u))).length : ℚ) + 1 ≤
        ((s.filterMap id).length : ℚ) / 5) →
      (quintile_grade s labels).get? i = some (some (labels.getD 0 ""))) := by
  refine ⟨?_, ?_, bucket_char, ?_, ?_⟩
  · unfold quintile_grade
    split_ifs <;> simp
  · intro h
    unfold quintile_grade
    split_ifs <;> rw [List.get?_map, h] <;> rfl
  · intro hne h
    unfold quintile_grade
    rw [if_neg hne, List.get?_map, h]
    rfl
  · intro hnd hN h htop
    set valid := s.filterMap id with hvalid
    have hNpos : (0:ℚ) < valid.length := by
      have : (0:ℕ) < valid.length := by omega
      exact_mod_cast this
    have hvmem : v ∈ valid := by
      rw [hvalid]
      exact List.mem_filterMap.mpr ⟨some v, List.get?_mem h, rfl⟩
    have hone : (valid.filter (fun u => decide (u = v))).length = 1 :=
      nodup_filter_eq_length valid v hnd hvmem
    set gt := (valid.filter (fun u => decide (v < u))).length with hgt
    have hrank : descPctRank valid v = ((gt : ℚ) + 1) / valid.length := by
      rw [descPctRank, hone]
      norm_num
    have hr0 : 0 < descPctRank valid v := by
      rw [hrank]
      apply div_pos _ hNpos
      positivity
    have hr15 : descPctRank valid v ≤ 2/10 := by
      rw [hrank, div_le_iff₀ hNpos]
      linarith
    have hr1 : descPctRank valid v ≤ 1 := by
      rw [hrank, div_le_one hNpos]
      have : ((gt : ℚ) + 1) ≤ (valid.length : ℚ) / 5 := htop
      linarith
    have hne : valid ≠ [] := by
      intro hc
      rw [hc] at hN
      simp at hN
    have hb : bucketOf (descPctRank valid v) = 0 := by
      rw [bucket_char _ hr0 hr1, if_pos hr15]
    unfold quintile_grade
    rw [if_neg hne, List.get?_map, h]
    simp [hb]

/-- C4 witness: for the vector `[10, 8, 6, 4, 2, missing]` (5 distinct
values), the best value grades to the top label "S" via the best-20% part
of `C4_quintile_grade`, and the missing slot grades to missing. -/
theorem C4_quintile_grade_witness :
    (quintile_grade [some 10, some 8, some 6, some 4, some 2, none]
        ["S", "A", "B", "C", "D"]).get? 0 = some (some "S") ∧
    (quintile_grade [some 10, some 8, some 6, some 4, some 2, none]
        ["S", "A", "B", "C", "D"]).get? 5 = some none := by
  have hv : List.filterMap id [some (10:ℚ), some 8, some 6, some 4, some 2, none] =
      [10, 8, 6, 4, 2] := rfl
  constructor
  · have h := (C4_quintile_grade [some 10, some 8, some 6, some 4, some 2, none]
      ["S", "A", "B", "C", "D"] 0 10).2.2.2.2
      (by rw [hv]; norm_num [List.nodup_cons, List.mem_cons])
      (by rw [hv]; norm_num) rfl
      (by rw [hv]; norm_num [List.filter_cons])
    simpa using h
  · exact (C4_quintile_grade [some 10, some 8, some 6, some 4, some 2, none]
      ["S", "A", "B", "C", "D"] 5 0).2.1 rfl

/-! ### Grade-evolution cutoff sweep (`render_growth_score`, lines 1897-1961) -/

/-- The fixed candidate cutoff list (src/Dashboard.py line 1739). -/
def EP_CHOICES : List ℕ := [2, 4, 6, 8, 10, 12, 14, 16]

/-- The episode numbers of the selected IP's rows carrying a valid
(non-NaN, non-zero) value (src/Dashboard.py lines 1902-1903:
`value_num = to_numeric(...).replace(0, nan)`, then the episodes of rows
with `value_num` present; `np.nanmax` ignores episode NaNs, modelled by
`filterMap`). -/
def validEps (rows : List Row) : List ℕ :=
  (rows.filter validValue).filterMap (·.epNum)

/-- The cutoffs the sweep evaluates (src/Dashboard.py lines 1904-1907):
the fixed list truncated to cutoffs at most the maximum valid episode, or
`[min(EP_CHOICES)]` when no valid episode exists. -/
def candidateNs (rows : List Row) : List ℕ :=
  match (validEps rows).maximum? with
  | some m => EP_CHOICES.filter (fun n => decide (n ≤ m))
  | none =>
      match EP_CHOICES.minimum? with
      | some m => [m]
      | none => []

/-- The sweep loop (src/Dashboard.py lines 1938-1960): the grading pipeline,
abstracted as `gradeAt`, is evaluated once per candidate cutoff. -/
def gradeEvolution {α : Type} (rows : List Row) (gradeAt : ℕ → α) : List (ℕ × α) :=
  (candidateNs rows).map (fun n => (n, gradeAt n))

/-- C8: when the selected IP has a maximum episode number `M` with a valid
(non-missing, non-zero) value, the sweep evaluates the grading pipeline at
exactly the cutoffs of the fixed ascending list 2,4,6,8,10,12,14,16 that are
at most `M`, and no others. -/
theorem C8_cutoff_sweep {α : Type} (rows : List Row) (gradeAt : ℕ → α) (M : ℕ)
    (h : (validEps rows).maximum? = some M) :
    candidateNs rows = EP_CHOICES.filter (fun n => decide (n ≤ M)) ∧
    (gradeEvolution rows gradeAt).map Prod.fst =
      EP_CHOICES.filter (fun n => decide (n ≤ M)) ∧
    EP_CHOICES = [2, 4, 6, 8, 10, 12, 14, 16] ∧
    List.Chain' (· < ·) EP_CHOICES := by
  have hc : candidateNs rows = EP_CHOICES.filter (fun n => decide (n ≤ M)) := by
    unfold candidateNs
    rw [h]
  have hchain : List.Chain' (· < ·) EP_CHOICES := by
    unfold EP_CHOICES
    repeat constructor <;> norm_num
  refine ⟨hc, ?_, rfl, hchain⟩
  unfold gradeEvolution
  rw [List.map_map]
  have hcomp : (Prod.fst ∘ fun n => (n, gradeAt n)) = id := rfl
  rw [hcomp, List.map_id]
  exact hc

/-- C8 witness: an IP whose only valid row sits at episode 5 is swept at
cutoffs 2 and 4 only. -/
theorem C8_cutoff_sweep_witness :
    candidateNs [⟨"A", "m", "TV", some 5, some 3⟩] = [2, 4] ∧
    (gradeEvolution [⟨"A", "m", "TV", some 5, some 3⟩] (fun n => n)).map Prod.fst = [2, 4] := by
  have h := C8_cutoff_sweep [⟨"A", "m", "TV", some 5, some 3⟩] (fun n => n) 5 rfl
  exact ⟨by rw [h.1]; decide, by rw [h.2.1]; decide⟩

/-! ### Trend slope (`_series_for_reg` / `_slope`, src/Dashboard.py 1796-1819) -/

lemma list_map_sum_eq {α : Type} (d : α) (f : α → ℚ) :
    ∀ (l : List α), (l.map f).sum = ∑ i in Finset.range l.length, f (l.getD i d) := by
  intro l
  induction l with
  | nil => simp
  | cons a t ih =>
      simp only [List.map_cons, List.sum_cons, List.length_cons]
      rw [Finset.sum_range_succ']
      simp only [List.getD_cons_succ, List.getD_cons_zero]
      rw [← ih]
      ring

lemma double_sum_expand (n : ℕ) (x y : ℕ → ℚ) :
    ∑ i in Finset.range n, ∑ j in Finset.range n, (x i - x j) * (y i - y j) =
      2 * ((n : ℚ) * ∑ i in Finset.range n, x i * y i -
        (∑ i in Finset.range n, x i) * (∑ i in Finset.range n, y i)) := by
  have h : ∀ i j, (x i - x j) * (y i - y j) =
      x i * y i - x i * y j - x j * y i + x j * y j := by
    intro i j; ring
  have inner : ∀ i, ∑ j in Finset.range n, (x i - x j) * (y i - y j) =
      (n : ℚ) * (x i * y i) - x i * (∑ j in Finset.range n, y j)
        - (∑ j in Finset.range n, x j) * y i + ∑ j in Finset.range n, x j * y j := by
    intro i
    rw [Finset.sum_congr rfl (fun j _ => h i j), Finset.sum_add_distrib,
      Finset.sum_sub_distrib, Finset.sum_sub_distrib, Finset.sum_const,
      Finset.card_range, nsmul_eq_mul, ← Finset.mul_sum, ← Finset.sum_mul]
  rw [Finset.sum_congr rfl (fun i _ => inner i), Finset.sum_add_distrib,
    Finset.sum_sub_distrib, Finset.sum_sub_distrib, Finset.sum_const,
    Finset.card_range, nsmul_eq_mul, ← Finset.mul_sum, ← Finset.sum_mul,
    ← Finset.mul_sum]
  ring

lemma double_sum_pos (n : ℕ) (hn : 2 ≤ n) (x y : ℕ → ℚ)
    (hx : ∀ i j, i < j → j < n → x i < x j) (hy : ∀ i j, i < j → j < n → y i < y j) :
    0 < ∑ i in Finset.range n, ∑ j in Finset.range n, (x i - x j) * (y i - y j) := by
  have hterm : ∀ i ∈ Finset.range n, ∀ j ∈ Finset.range n,
      0 ≤ (x i - x j) * (y i - y j) := by
    intro i hi j hj
    rcases lt_trichotomy i j with hij | hij | hij
    · have h1 := hx i j hij (Finset.mem_range.mp hj)
      have h2 := hy i j hij (Finset.mem_range.mp hj)
      nlinarith
    · subst hij; simp
    · have h1 := hx j i hij (Finset.mem_range.mp hi)
      have h2 := hy j i hij (Finset.mem_range.mp hi)
      nlinarith
  apply Finset.sum_pos'
  · intro i hi
    exact Finset.sum_nonneg (fun j hj => hterm i hi j hj)
  · refine ⟨0, Finset.mem_range.mpr (by omega), ?_⟩
    apply Finset.sum_pos'
    · intro j hj
      exact hterm 0 (Finset.mem_range.mpr (by omega)) j hj
    · refine ⟨1, Finset.mem_range.mpr (by omega), ?_⟩
      have h1 := hx 0 1 (by omega) (by omega)
      have h2 := hy 0 1 (by omega) (by omega)
      nlinarith

/-- The x coordinate of the i-th regression point. -/
def ptX (pts : List (ℚ × ℚ)) (i : ℕ) : ℚ := (pts.getD i (0, 0)).1

/-- The y coordinate of the i-th regression point. -/
def ptY (pts : List (ℚ × ℚ)) (i : ℕ) : ℚ := (pts.getD i (0, 0)).2

/-- The slope of `np.polyfit(x, y, 1)`: the ordinary-least-squares
first-degree coefficient `(n Σxy − Σx Σy) / (n Σx² − (Σx)²)`.  The
singular case (zero denominator) raises inside numpy and is caught by
`_slope`'s `except`, yielding a missing slope. -/
def polyfitSlope (pts : List (ℚ × ℚ)) : Option ℚ :=
  if ((pts.length : ℚ) * (pts.map (fun p => p.1 * p.1)).sum -
      (pts.map Prod.fst).sum * (pts.map Prod.fst).sum) = 0 then none
  else some (((pts.length : ℚ) * (pts.map (fun p => p.1 * p.2)).sum -
      (pts.map Prod.fst).sum * (pts.map Prod.snd).sum) /
    ((pts.length : ℚ) * (pts.map (fun p => p.1 * p.1)).sum -
      (pts.map Prod.fst).sum * (pts.map Prod.fst).sum))

lemma pairwise_comp_indexed (f : ℚ × ℚ → ℚ) (pts : List (ℚ × ℚ))
    (h : (pts.map f).Pairwise (· < ·)) :
    ∀ i j, i < j → j < pts.length → f (pts.getD i (0, 0)) < f (pts.getD j (0, 0)) := by
  intro i j hij hj
  have hi : i < pts.length := lt_trans hij hj
  have hi' : i < (pts.map f).length := by simpa using hi
  have hj' : j < (pts.map f).length := by simpa using hj
  have hmap := List.pairwise_iff_get.mp h ⟨i, hi'⟩ ⟨j, hj'⟩ (Fin.mk_lt_mk.mpr hij)
  rw [List.get_map, List.get_map] at hmap
  rwa [List.getD_eq_get pts (0, 0) hi, List.getD_eq_get pts (0, 0) hj]

lemma sum_bridge_fst (pts : List (ℚ × ℚ)) :
    (pts.map Prod.fst).sum = ∑ i in Finset.range pts.length, ptX pts i :=
  list_map_sum_eq (0, 0) Prod.fst pts

lemma sum_bridge_snd (pts : List (ℚ × ℚ)) :
    (pts.map Prod.snd).sum = ∑ i in Finset.range pts.length, ptY pts i :=
  list_map_sum_eq (0, 0) Prod.snd pts

lemma sum_bridge_xx (pts : List (ℚ × ℚ)) :
    (pts.map (fun p => p.1 * p.1)).sum =
      ∑ i in Finset.range pts.length, ptX pts i * ptX pts i :=
  list_map_sum_eq (0, 0) (fun p => p.1 * p.1) pts

lemma sum_bridge_xy (pts : List (ℚ × ℚ)) :
    (pts.map (fun p => p.1 * p.2)).sum =
      ∑ i in Finset.range pts.length, ptX pts i * ptY pts i :=
  list_map_sum_eq (0, 0) (fun p => p.1 * p.2) pts

lemma polyfit_denom_pos (pts : List (ℚ × ℚ)) (hn : 2 ≤ pts.length)
    (hx : (pts.map Prod.fst).Pairwise (· < ·)) :
    0 < (pts.length : ℚ) * (pts.map (fun p => p.1 * p.1)).sum -
      (pts.map Prod.fst).sum * (pts.map Prod.fst).sum := by
  have hx' : ∀ i j, i < j → j < pts.length → ptX pts i < ptX pts j :=
    pairwise_comp_indexed Prod.fst pts hx
  have h2 := double_sum_pos pts.length hn (ptX pts) (ptX pts) hx' hx'
  rw [double_sum_expand] at h2
  rw [sum_bridge_xx, sum_bridge_fst]
  linarith

lemma polyfitSlope_pos (pts : List (ℚ × ℚ)) (hn : 2 ≤ pts.length)
    (hx : (pts.map Prod.fst).Pairwise (· < ·)) (hy : (pts.map Prod.snd).Pairwise (· < ·)) :
    ∃ s, polyfitSlope pts = some s ∧ 0 < s := by
  have hx' : ∀ i j, i < j → j < pts.length → ptX pts i < ptX pts j :=
    pairwise_comp_indexed Prod.fst pts hx
  have hy' : ∀ i j, i < j → j < pts.length → ptY pts i < ptY pts j :=
    pairwise_comp_indexed Prod.snd pts hy
  have hD := polyfit_denom_pos pts hn hx
  have hN : 0 < (pts.length : ℚ) * (pts.map (fun p => p.1 * p.2)).sum -
      (pts.map Prod.fst).sum * (pts.map Prod.snd).sum := by
    have h2 := double_sum_pos pts.length hn (ptX pts) (ptY pts) hx' hy'
    rw [double_sum_expand] at h2
    rw [sum_bridge_xy, sum_bridge_fst, sum_bridge_snd]
    linarith
  refine ⟨_, ?_, div_pos hN hD⟩
  unfold polyfitSlope
  rw [if_neg (ne_of_gt hD)]

lemma polyfitSlope_const (pts : List (ℚ × ℚ)) (hn : 2 ≤ pts.length)
    (hx : (pts.map Prod.fst).Pairwise (· < ·)) (c : ℚ)
    (hy : ∀ y ∈ pts.map Prod.snd, y = c) :
    polyfitSlope pts = some 0 := by
  have hD := polyfit_denom_pos pts hn hx
  have hyi : ∀ i, i < pts.length → ptY pts i = c := by
    intro i hi
    have he : ptY pts i = (pts.get ⟨i, hi⟩).2 := by
      rw [ptY, List.getD_eq_get pts (0, 0) hi]
    rw [he]
    exact hy _ (List.mem_map.mpr ⟨pts.get ⟨i, hi⟩, List.get_mem pts _ _, rfl⟩)
  have hN : (pts.length : ℚ) * (pts.map (fun p => p.1 * p.2)).sum -
      (pts.map Prod.fst).sum * (pts.map Prod.snd).sum = 0 := by
    rw [sum_bridge_xy, sum_bridge_fst, sum_bridge_snd]
    have e1 : ∑ i in Finset.range pts.length, ptX pts i * ptY pts i =
        (∑ i in Finset.range pts.length, ptX pts i) * c := by
      rw [Finset.sum_mul]
      refine Finset.sum_congr rfl (fun i hi => ?_)
      rw [hyi i (Finset.mem_range.mp hi)]
    have e2 : ∑ i in Finset.range pts.length, ptY pts i = (pts.length : ℚ) * c := by
      rw [Finset.sum_congr rfl (fun i hi => hyi i (Finset.mem_range.mp hi)),
        Finset.sum_const, Finset.card_range, nsmul_eq_mul]
    rw [e1, e2]
    ring
  unfold polyfitSlope
  rw [if_neg (ne_of_gt hD), hN, zero_div]

/-- `metric in ["H시청률", "T시청률"]`: the metrics reduced by a per-episode
mean rather than a per-episode sum (src/Dashboard.py line 1806). -/
def isRatingMetric (m : String) : Bool := m == "H시청률" || m == "T시청률"

/-- The `media == "LIVE"` / `media == "VOD"` sub-channel filter of
`_series_for_reg` (src/Dashboard.py lines 1798-1801). -/
def mediaFilterGrowth (sub : List Row) (media : Option String) : List Row :=
  match media with
  | some "LIVE" => sub.filter (fun r => r.media == "TVING LIVE")
  | some "VOD" => sub.filter (fun r => r.media == "TVING VOD")
  | _ => sub

/-- The rows `_series_for_reg` feeds to the regression: metric filter, media
filter, `_filter_to_ep` (episode number present and at most the cutoff), and
the zero/missing value filter
(src/Dashboard.py lines 1797-1804 and 1790-1794). -/
def regSurvivors (ipdf : List Row) (metric : String) (media : Option String)
    (cutoff : ℚ) : List Row :=
  ((mediaFilterGrowth (ipdf.filter (fun r => r.metric == metric)) media).filter
    (fun r => match r.epNum with
      | some e => decide ((e : ℚ) ≤ cutoff)
      | none => false)).filter validValue

/-- The per-episode reduced series: `groupby("회차_numeric")` (keys sorted
ascending) with a mean for rating metrics and a sum otherwise, then
`sort_values` (src/Dashboard.py lines 1806-1810). -/
def epPoints (sub : List Row) (metric : String) : List (ℚ × ℚ) :=
  (List.insertionSort (· ≤ ·) (sub.filterMap (·.epNum)).dedup).map (fun (e : ℕ) =>
    ((e : ℚ),
      if isRatingMetric metric then
        ((sub.filter (fun r => r.epNum == some e)).filterMap (·.value)).sum /
          (((sub.filter (fun r => r.epNum == some e)).filterMap (·.value)).length : ℚ)
      else ((sub.filter (fun r => r.epNum == some e)).filterMap (·.value)).sum))

/-- `_series_for_reg` (src/Dashboard.py lines 1796-1813): `None` when no row
survives or when fewer than 2 distinct episode points remain. -/
def series_for_reg (ipdf : List Row) (metric : String) (media : Option String)
    (cutoff : ℚ) : Option (List (ℚ × ℚ)) :=
  if regSurvivors ipdf metric media cutoff = [] then none
  else if 2 ≤ (epPoints (regSurvivors ipdf metric media cutoff) metric).length then
    some (epPoints (regSurvivors ipdf metric media cutoff) metric)
  else none

/-- `_slope` (src/Dashboard.py lines 1815-1819): NaN (modelled `none`) when
the series is missing or the fit fails, else the first-degree coefficient. -/
def slope (ipdf : List Row) (metric : String) (media : Option String)
    (cutoff : ℚ) : Option ℚ :=
  match series_for_reg ipdf metric media cutoff with
  | none => none
  | some pts => polyfitSlope pts

lemma epPoints_fst_pairwise (sub : List Row) (metric : String) :
    ((epPoints sub metric).map Prod.fst).Pairwise (· < ·) := by
  unfold epPoints
  rw [List.map_map]
  have hsorted : (List.insertionSort (· ≤ ·) (sub.filterMap (·.epNum)).dedup).Sorted (· ≤ ·) :=
    List.sorted_insertionSort _ _
  have hnodup : (List.insertionSort (· ≤ ·) (sub.filterMap (·.epNum)).dedup).Nodup :=
    (List.perm_insertionSort _ _).symm.nodup (sub.filterMap (·.epNum)).nodup_dedup
  have hlt : (List.insertionSort (· ≤ ·) (sub.filterMap (·.epNum)).dedup).Pairwise (· < ·) :=
    (hsorted.and hnodup).imp (fun h => lt_of_le_of_ne h.1 h.2)
  exact hlt.map _ (fun a b h => by
    simp only [Function.comp]
    exact_mod_cast h)

lemma epPoints_length (sub : List Row) (metric : String) :
    (epPoints sub metric).length = (sub.filterMap (·.epNum)).dedup.length := by
  unfold epPoints
  rw [List.length_map, (List.perm_insertionSort _ _).length_eq]

lemma series_some_structure (ipdf : List Row) (metric : String) (media : Option String)
    (cutoff : ℚ) (pts : List (ℚ × ℚ))
    (h : series_for_reg ipdf metric media cutoff = some pts) :
    2 ≤ pts.length ∧ (pts.map Prod.fst).Pairwise (· < ·) := by
  unfold series_for_reg at h
  split_ifs at h with h1 h2
  obtain rfl := Option.some_inj.mp h
  exact ⟨h2, epPoints_fst_pairwise _ _⟩

lemma slope_none_of_few (ipdf : List Row) (metric : String) (media : Option String)
    (cutoff : ℚ)
    (h : ((regSurvivors ipdf metric media cutoff).filterMap (·.epNum)).dedup.length < 2) :
    slope ipdf metric media cutoff = none := by
  have hs : series_for_reg ipdf metric media cutoff = none := by
    unfold series_for_reg
    split_ifs with h1 h2
    · rfl
    · rw [epPoints_length] at h2
      omega
    · rfl
  unfold slope
  rw [hs]

/-- C5: the per-episode reduced series (mean per episode for rating metrics,
sum otherwise) restricted to episodes at most the cutoff comes out sorted by
episode number with at least 2 distinct episode points whenever it exists;
with fewer than 2 distinct episode points the slope is missing; the
ordinary-least-squares slope of a strictly increasing series is positive and
of a constant series is exactly 0. -/
theorem C5_trend_slope (df : List Row) (metric : String) (media : Option String) (cutoff : ℚ)
    (pts : List (ℚ × ℚ)) (c : ℚ) :
    (series_for_reg df metric media cutoff = some pts →
      2 ≤ pts.length ∧ (pts.map Prod.fst).Pairwise (· < ·)) ∧
    (((regSurvivors df metric media cutoff).filterMap (·.epNum)).dedup.length < 2 →
      slope df metric media cutoff = none) ∧
    (series_for_reg df metric media cutoff = some pts →
      (pts.map Prod.snd).Pairwise (· < ·) →
      ∃ s, slope df metric media cutoff = some s ∧ 0 < s) ∧
    (series_for_reg df metric media cutoff = some pts →
      (∀ y ∈ pts.map Prod.snd, y = c) →
      slope df metric media cutoff = some 0) := by
  refine ⟨series_some_structure df metric media cutoff pts,
    slope_none_of_few df metric media cutoff, ?_, ?_⟩
  · intro h hy
    obtain ⟨hn, hx⟩ := series_some_structure df metric media cutoff pts h
    obtain ⟨s, hs, hpos⟩ := polyfitSlope_pos pts hn hx hy
    refine ⟨s, ?_, hpos⟩
    unfold slope
    rw [h]
    exact hs
  · intro h hy
    obtain ⟨hn, hx⟩ := series_some_structure df metric media cutoff pts h
    unfold slope
    rw [h]
    exact polyfitSlope_const pts hn hx c hy

/-- C5 witness: for episodes 1..3 with values 2, 3, 4 (a strictly
increasing series), the fitted slope exists and is positive. -/
theorem C5_trend_slope_witness :
    ∃ s, slope [⟨"A", "m", "TV", some 1, some 2⟩, ⟨"A", "m", "TV", some 2, some 3⟩,
      ⟨"A", "m", "TV", some 3, some 4⟩] "m" none 16 = some s ∧ 0 < s :=
  (C5_trend_slope [⟨"A", "m", "TV", some 1, some 2⟩, ⟨"A", "m", "TV", some 2, some 3⟩,
      ⟨"A", "m", "TV", some 3, some 4⟩] "m" none 16 [(1, 2), (2, 3), (3, 4)] 0).2.2.1
    (by
      norm_num [series_for_reg, regSurvivors, epPoints, mediaFilterGrowth, validValue,
        isRatingMetric, List.filter_cons, List.filterMap_cons]
      exact fun h => by simp at h)
    (by norm_num [List.pairwise_cons])

/-! ### Overall composite grade (`render_growth_score`, lines 1856-1864) -/

/-- The five grade labels of the absolute axis. -/
def GRADE_LABELS : List String := ["S", "A", "B", "C", "D"]

/-- `_to_percentile` (src/Dashboard.py lines 1843-1845):
`Series.rank(pct=True) * 100` — ascending average rank over the non-missing
entries, as a percentage; a missing entry stays missing. -/
def to_percentile (s : List (Option ℚ)) : List (Option ℚ) :=
  s.map (Option.map (fun v =>
    ((((s.filterMap id).filter (fun u => decide (u < v))).length : ℚ) +
      ((((s.filterMap id).filter (fun u => decide (u = v))).length : ℚ) + 1) / 2) /
      ((s.filterMap id).length : ℚ) * 100))

/-- `DataFrame.mean(axis=1)` for one row: the mean of the present entries,
missing when every entry is missing. -/
def rowMean (l : List (Option ℚ)) : Option ℚ :=
  match l.filterMap id with
  | [] => none
  | v :: vs => some ((v :: vs).sum / ((v :: vs).length : ℚ))

/-- Column `j` of a table whose rows hold one value per tracked metric. -/
def colOf (tbl : List (List (Option ℚ))) (j : ℕ) : List (Option ℚ) :=
  tbl.map (fun row => row.getD j none)

/-- `base["_ABS_PCT_MEAN"]` (src/Dashboard.py line 1860):
`pd.concat([_to_percentile(base[col]) for col in metrics], axis=1).mean(axis=1)`
— the per-IP mean of the per-metric percentile ranks. -/
def absPctMean (tbl : List (List (Option ℚ))) (m : ℕ) : List (Option ℚ) :=
  (List.range tbl.length).map (fun i =>
    rowMean (((List.range m).map (fun j => to_percentile (colOf tbl j))).map
      (fun c => c.getD i none)))

/-- `base["종합_절대등급"] = _quintile_grade(base["_ABS_PCT_MEAN"], labels)`
(src/Dashboard.py line 1862): the overall absolute grade column. -/
def overallAbsGrade (tbl : List (List (Option ℚ))) (m : ℕ) : List (Option String) :=
  quintile_grade (absPctMean tbl m) GRADE_LABELS

/-- The `ABS_SCORE` value of a letter grade
(src/Dashboard.py line 1742), missing for a missing grade. -/
def gradeScore (g : Option String) : Option ℚ :=
  match g with
  | some "S" => some 5
  | some "A" => some 4
  | some "B" => some 3
  | some "C" => some 2
  | some "D" => some 1
  | _ => none

/-- Modelled from the spec: the "grade-of-grades" alternative that §4.3 says
the implementation does NOT compute — grade each metric column separately,
convert the letter grades to their 5..1 scores, average the scores per IP,
and quintile-grade that mean score. -/
def specGradeOfGrades (tbl : List (List (Option ℚ))) (m : ℕ) : List (Option String) :=
  quintile_grade ((List.range tbl.length).map (fun i =>
    rowMean ((List.range m).map (fun j =>
      gradeScore ((quintile_grade (colOf tbl j) GRADE_LABELS).getD i none)))))
    GRADE_LABELS

/-- A concrete cross-IP table (6 IPs, 2 metrics) on which grading the
averaged percentiles and combining per-metric grades disagree. -/
def exTbl : List (List (Option ℚ)) :=
  [[some 60, some 60], [some 50, some 30], [some 40, some 20],
   [some 30, some 10], [some 20, some 40], [some 10, some 50]]

set_option maxHeartbeats 1000000 in
lemma exTbl_absPctMean :
    absPctMean exTbl 2 =
      [some 100, some (200/3), some 50, some (100/3), some 50, some 50] := by
  have hc0 : colOf exTbl 0 = [some 60, some 50, some 40, some 30, some 20, some 10] := rfl
  have hc1 : colOf exTbl 1 = [some 60, some 30, some 20, some 10, some 40, some 50] := rfl
  have hr2 : List.range 2 = [0, 1] := rfl
  have hr6 : List.range exTbl.length = [0, 1, 2, 3, 4, 5] := rfl
  simp only [absPctMean, hr6, hr2, List.map_cons, List.map_nil, hc0, hc1]
  norm_num [to_percentile, rowMean, List.filter_cons, List.filterMap_cons,
    List.getD_cons_zero, List.getD_cons_succ]

set_option maxHeartbeats 1000000 in
lemma exTbl_overall :
    overallAbsGrade exTbl 2 =
      [some "S", some "A", some "C", some "D", some "C", some "C"] := by
  rw [overallAbsGrade, exTbl_absPctMean]
  have hv : List.filterMap id [some (100:ℚ), some (200/3), some 50, some (100/3),
      some 50, some 50] = [100, 200/3, 50, 100/3, 50, 50] := rfl
  simp only [quintile_grade, hv]
  rw [if_neg (List.cons_ne_nil _ _)]
  norm_num [descPctRank, bucketOf, digitizeRight, QUINTILE_BINS, GRADE_LABELS,
    List.filter_cons]

set_option maxHeartbeats 1000000 in
lemma exTbl_col0_grades :
    quintile_grade (colOf exTbl 0) GRADE_LABELS =
      [some "S", some "A", some "B", some "C", some "D", some "D"] := by
  have hc0 : colOf exTbl 0 = [some 60, some 50, some 40, some 30, some 20, some 10] := rfl
  have hv : List.filterMap id [some (60:ℚ), some 50, some 40, some 30, some 20, some 10] =
      [60, 50, 40, 30, 20, 10] := rfl
  rw [hc0]
  simp only [quintile_grade, hv]
  rw [if_neg (List.cons_ne_nil _ _)]
  norm_num [descPctRank, bucketOf, digitizeRight, QUINTILE_BINS, GRADE_LABELS,
    List.filter_cons]

set_option maxHeartbeats 1000000 in
lemma exTbl_col1_grades :
    quintile_grade (colOf exTbl 1) GRADE_LABELS =
      [some "S", some "C", some "D", some "D", some "B", some "A"] := by
  have hc1 : colOf exTbl 1 = [some 60, some 30, some 20, some 10, some 40, some 50] := rfl
  have hv : List.filterMap id [some (60:ℚ), some 30, some 20, some 10, some 40, some 50] =
      [60, 30, 20, 10, 40, 50] := rfl
  rw [hc1]
  simp only [quintile_grade, hv]
  rw [if_neg (List.cons_ne_nil _ _)]
  norm_num [descPctRank, bucketOf, digitizeRight, QUINTILE_BINS, GRADE_LABELS,
    List.filter_cons]

set_option maxHeartbeats 1000000 in
lemma exTbl_gradeOfGrades :
    specGradeOfGrades exTbl 2 =
      [some "S", some "A", some "C", some "D", some "C", some "B"] := by
  have hr2 : List.range 2 = [0, 1] := rfl
  have hr6 : List.range exTbl.length = [0, 1, 2, 3, 4, 5] := rfl
  have hscores : List.map (fun i =>
      rowMean (List.map (fun j =>
        gradeScore ((quintile_grade (colOf exTbl j) GRADE_LABELS).getD i none)) [0, 1]))
      [0, 1, 2, 3, 4, 5] =
      [some 5, some 3, some 2, some (3/2), some 2, some (5/2)] := by
    simp only [List.map_cons, List.map_nil, exTbl_col0_grades, exTbl_col1_grades]
    norm_num [rowMean, gradeScore, List.getD_cons_zero, List.getD_cons_succ,
      List.filterMap_cons]
  rw [specGradeOfGrades]
  simp only [hr6, hr2, hscores]
  have hv : List.filterMap id [some (5:ℚ), some 3, some 2, some (3/2), some 2, some (5/2)] =
      [5, 3, 2, 3/2, 2, 5/2] := rfl
  simp only [quintile_grade, hv]
  rw [if_neg (List.cons_ne_nil _ _)]
  norm_num [descPctRank, bucketOf, digitizeRight, QUINTILE_BINS, GRADE_LABELS,
    List.filter_cons]

/-- C6: the overall composite grade per IP is the quintile grade of the
arithmetic mean of the IP's percentile ranks across the tracked metrics
(`_quintile_grade` applied to `_ABS_PCT_MEAN`), not a function of the
per-metric letter grades: on the concrete cross-IP table `exTbl` the
implementation's overall grades and the spec-modelled grade-of-grades
disagree. -/
theorem C6_overall_composite (tbl : List (List (Option ℚ))) (m : ℕ) (l : List ℚ) :
    overallAbsGrade tbl m = quintile_grade (absPctMean tbl m) GRADE_LABELS ∧
    (l ≠ [] → rowMean (l.map some) = some (l.sum / (l.length : ℚ))) ∧
    overallAbsGrade exTbl 2 ≠ specGradeOfGrades exTbl 2 := by
  refine ⟨rfl, ?_, ?_⟩
  · intro h
    have hf : List.filterMap id (l.map some) = l := by
      simp
    cases l with
    | nil => exact absurd rfl h
    | cons v vs =>
        unfold rowMean
        rw [hf]
  · rw [exTbl_overall, exTbl_gradeOfGrades]
    simp

/-- C6 witness: the percentile-mean of a single present percentile is that
percentile itself. -/
theorem C6_overall_composite_witness : rowMean [some (75:ℚ)] = some 75 := by
  have h := (C6_overall_composite [] 0 [75]).2.1 (by simp)
  norm_num at h
  exact h

end Dashboard
